import Mathlib

/-!
Verification of the db-restore-cli backup-restoration pipeline.

The definitions below are shallow embeddings of the functions in
`src/restore-cli.js` (format sniffing, extracted-dump discovery, restore
error classification, the verification gate, the ownership normalizer and
temp-directory cleanup).  Strings are modelled as Lean `String`s over their
`List Char` data; external effects (file system, psql/pg_restore
invocations) are passed in explicitly as data or as an oracle function, so
every definition is executable and the theorems quantify over all possible
environments.
-/

namespace DbRestoreCli

/-! ## Character-list utilities (JS string primitives) -/

/-- Lowercase the characters of a string, as JS `toLowerCase` does for ASCII. -/
def lcs (s : String) : List Char := s.data.map Char.toLower

/-- JS `String.prototype.startsWith` on character lists. -/
def isPrefixCs : List Char → List Char → Bool
  | [], _ => true
  | _ :: _, [] => false
  | a :: as, b :: bs => a == b && isPrefixCs as bs

/-- JS `String.prototype.includes` on character lists. -/
def isSubCs (needle : List Char) : List Char → Bool
  | [] => needle.isEmpty
  | c :: rest => isPrefixCs needle (c :: rest) || isSubCs needle rest

/-- JS `String.prototype.endsWith` on character lists. -/
def endsWithCs (suffix s : List Char) : Bool :=
  isPrefixCs suffix.reverse s.reverse

/-- Whitespace recognised by JS `trim` (the cases that occur in tool output). -/
def isWs (c : Char) : Bool :=
  c == ' ' || c == '\t' || c == '\n' || c == '\r'

/-- JS `String.prototype.trim` on character lists. -/
def trimCs (l : List Char) : List Char :=
  ((l.dropWhile isWs).reverse.dropWhile isWs).reverse

/-- JS `String.prototype.split(sep)` for a one-character separator. -/
def splitOnC (sep : Char) : List Char → List (List Char)
  | [] => [[]]
  | c :: rest =>
    if c == sep then
      [] :: splitOnC sep rest
    else
      match splitOnC sep rest with
      | [] => [[c]]
      | l :: ls => (c :: l) :: ls

/-- Node `path.basename`: the final component of a slash-separated path. -/
def basenameOf (p : String) : String :=
  String.mk ((splitOnC '/' p.data).reverse.headD p.data)

/-- Suffix of a character list starting at its last dot, if any. -/
def extSuffix : List Char → Option (List Char)
  | [] => none
  | c :: rest =>
    match extSuffix rest with
    | some e => some e
    | none => if c == '.' then some (c :: rest) else none

/-- Node `path.extname`: extension of the basename from its last dot;
a lone leading dot (dotfile) yields the empty extension. -/
def extnameOf (p : String) : String :=
  match (basenameOf p).data with
  | [] => ""
  | c :: rest =>
    match extSuffix (if c == '.' then rest else c :: rest) with
    | some e => String.mk e
    | none => ""

/-- Lowercased copy of a string (JS `toLowerCase`). -/
def lowerStr (s : String) : String := String.mk (lcs s)

/-! ## Format Sniffer — `detectDumpFormat` (restore-cli.js lines 1383-1434)

A file is modelled by its path and an optional content (`none` models a
path for which `fs.existsSync` is false or reading raises — both fall to
the `sql` fallback in the source). Content bytes are modelled as `Char`s;
the 512-byte sniff buffer becomes `take 512`. -/

/-- Bytes of the PostgreSQL custom-dump magic header. -/
def pgdmpMagic : List Char := "PGDMP".data

/-- Shallow embedding of `detectDumpFormat(filePath)`: extension checks
first, then the PGDMP magic on the first 5 bytes of the 512-byte sniff
buffer, then the SQL text patterns, then the directory-format markers,
defaulting to `sql` (also on unreadable/missing files, via the catch). -/
def detectDumpFormat (filePath : String) (content : Option (List Char)) : String :=
  let ext := lowerStr (extnameOf filePath)
  if ext = ".sql" then "sql"
  else if ext = ".dump" then "custom"
  else
    match content with
    | some bytes =>
      let header := bytes.take 512
      if header.take 5 = pgdmpMagic then "custom"
      else if isSubCs "--".data header || isSubCs "CREATE".data header ||
              isSubCs "INSERT".data header || isSubCs "SET ".data header ||
              isSubCs "\\connect".data header || isSubCs "BEGIN;".data header then "sql"
      else if isSubCs "toc.dat".data header || isSubCs "restore.sql".data header then "directory"
      else "sql"
    | none => "sql"

/-! ## Archive Extractor — extracted-dump discovery (restore-cli.js 653-865)

The extracted tree is modelled as nested entries; `readdirSync` order is
the list order.  A file records its byte size (`statSync.size`) and its
content (read by `readFileSync`), which the model keeps independent, as in
a real file system the size comes from metadata. -/

/-- The listing of an extracted directory: a `readdirSync` sibling chain
whose entries are files (with `statSync` size and read content) or
subdirectories carrying their own listing. -/
inductive FsTree where
  | nil : FsTree
  | file (name : String) (size : Nat) (content : List Char) (rest : FsTree)
  | dir (name : String) (entries : FsTree) (rest : FsTree)

/-- A discovered dump candidate, as built by the discovery functions. -/
structure Found where
  path : String
  format : String
  priority : Nat
  size : Nat
  deriving DecidableEq, Repr

deriving instance DecidableEq for Except

/-- File metadata collected by `getAllFiles`. -/
structure FileInfo where
  path : String
  name : String
  size : Nat
  content : List Char
  deriving DecidableEq

/-- The `supportedFormats` table of `searchForDatabaseFile` (lines 681-688):
extension, format, priority. -/
def supportedFormats : List (String × String × Nat) :=
  [(".sql", "sql", 1), (".dump", "custom", 2), (".dmp", "custom", 3),
   (".pg_dump", "custom", 4), (".backup", "custom", 5), (".bak", "custom", 6)]

/-- First supported extension matching the lowercased file name (the inner
`for (const format of supportedFormats)` loop with `break`). -/
def matchFormat (name : String) : Option (String × Nat) :=
  (supportedFormats.find? (fun f => endsWithCs f.1.data (lcs name))).map (fun f => f.2)

/-- `foundFiles.sort((a, b) => a.priority - b.priority)[0]`: the sort is
stable, so the head is the first element of minimal priority. -/
def pickMinPriority : List Found → Option Found
  | [] => none
  | f :: rest =>
    some (rest.foldl (fun best g => if g.priority < best.priority then g else best) f)

/-- The `for (const item of items)` body of `searchForDatabaseFile`:
collect the per-subdirectory best result (the recursive call followed by
its priority sort) and every extension match, in directory order. -/
def searchForDatabaseFileEntries (pfx : String) : FsTree → List Found
  | .nil => []
  | .file name size _ rest =>
    (match matchFormat name with
     | some (fmt, prio) => [⟨pfx ++ "/" ++ name, fmt, prio, size⟩]
     | none => []) ++ searchForDatabaseFileEntries pfx rest
  | .dir name subs rest =>
    (match pickMinPriority (searchForDatabaseFileEntries (pfx ++ "/" ++ name) subs) with
     | some f => [f]
     | none => []) ++ searchForDatabaseFileEntries pfx rest

/-- Shallow embedding of `searchForDatabaseFile(dir)` (lines 677-725):
recursive extension search returning the most-preferred (lowest-priority,
first in order) candidate. -/
def searchForDatabaseFile (pfx : String) (entries : FsTree) : Option Found :=
  pickMinPriority (searchForDatabaseFileEntries pfx entries)

/-- Shallow embedding of `getAllFiles(dir)` (lines 653-674): all files of
the tree, subtrees expanded in place of their directory entry. -/
def getAllFilesEntries (pfx : String) : FsTree → List FileInfo
  | .nil => []
  | .file name size content rest =>
    ⟨pfx ++ "/" ++ name, name, size, content⟩ :: getAllFilesEntries pfx rest
  | .dir name subs rest =>
    getAllFilesEntries (pfx ++ "/" ++ name) subs ++ getAllFilesEntries pfx rest

/-- The `for (const filePath of allFiles)` loop of `findBinaryDump`
(lines 737-758).  Note the source passes `start`/`end` options that
`readFileSync` ignores, reads the whole file, and tests
`magic.includes('PGDMP')`: the magic may occur anywhere in the content. -/
def findBinaryDumpFrom : List FileInfo → Option Found
  | [] => none
  | f :: rest =>
    if !(f.name.data.contains '.') && decide (1024 < f.size) && isSubCs pgdmpMagic f.content then
      some ⟨f.path, "custom", 2, f.size⟩
    else
      findBinaryDumpFrom rest

/-- Shallow embedding of `findBinaryDump(dir)` (lines 733-765). -/
def findBinaryDump (pfx : String) (entries : FsTree) : Option Found :=
  findBinaryDumpFrom (getAllFilesEntries pfx entries)

/-- The `dbPatterns` filename tests of `findAnyDatabaseFile` (lines 772-780),
all case-insensitive. -/
def dbNamePatternMatch (name : String) : Bool :=
  let n := lcs name
  isSubCs "database".data n || isSubCs "backup".data n || isSubCs "dump".data n ||
  endsWithCs ".db".data n || endsWithCs ".bak".data n ||
  isSubCs "postgres".data n || isSubCs "pg_".data n

/-- The scan loop of `findAnyDatabaseFile` (lines 782-796). -/
def findAnyDatabaseFileFrom : List FileInfo → Option Found
  | [] => none
  | f :: rest =>
    if dbNamePatternMatch f.name && decide (0 < f.size) then
      some ⟨f.path, "unknown", 10, f.size⟩
    else
      findAnyDatabaseFileFrom rest

/-- Shallow embedding of `findAnyDatabaseFile(dir)` (lines 768-803). -/
def findAnyDatabaseFile (pfx : String) (entries : FsTree) : Option Found :=
  findAnyDatabaseFileFrom (getAllFilesEntries pfx entries)

/-- JS `array.join(', ')`. -/
def joinComma : List String → String
  | [] => ""
  | [s] => s
  | s :: rest => s ++ ", " ++ joinComma rest

/-- The error raised when no discovery stage matched (lines 852-856),
enumerating the basenames of all extracted files. -/
def noDumpFoundMessage (files : List FileInfo) : String :=
  "No database file found in the backup archive. Supported formats: .sql, .dump, .dmp, .pg_dump, .backup, binary dumps. Found files: " ++
    joinComma (files.map (fun f => f.name))

/-- Shallow embedding of the post-extraction discovery chain of
`extractBackupFile` (lines 834-857): stage 1 `findDatabaseFile` (an alias
of `searchForDatabaseFile`), stage 2 `findBinaryDump`, stage 3
`findAnyDatabaseFile`, then the hard error. -/
def extractBackupFileDiscovery (pfx : String) (entries : FsTree) : Except String Found :=
  match searchForDatabaseFile pfx entries with
  | some f => .ok f
  | none =>
    match findBinaryDump pfx entries with
    | some f => .ok f
    | none =>
      match findAnyDatabaseFile pfx entries with
      | some f => .ok f
      | none => .error (noDumpFoundMessage (getAllFilesEntries pfx entries))

/-! ## `findExtractedSqlFile` (restore-cli.js 340-385)

Operates on a single directory listing: name and size pairs. -/

/-- The candidate filter of `findExtractedSqlFile` (lines 345-347). -/
def isSqlCandidate (f : String × Nat) : Bool :=
  endsWithCs ".sql".data f.1.data || endsWithCs ".dump".data f.1.data

/-- The `sqlFiles.forEach` loop (lines 369-376): keep the current best and
the recorded largest size, replacing on a strictly larger size. -/
def pickLargestFile : List (String × Nat) → (String × Nat) → Nat → String × Nat
  | [], best, _ => best
  | c :: rest, best, bs =>
    if bs < c.2 then pickLargestFile rest c c.2 else pickLargestFile rest best bs

/-- Shallow embedding of `findExtractedSqlFile(directory)`: error when no
`.sql`/`.dump` entry exists, the sole candidate when unique, otherwise the
largest candidate (initial best `sqlFiles[0]`, initial size `0`). -/
def findExtractedSqlFile (directory : String) (files : List (String × Nat)) : Except String String :=
  let sqlFiles := files.filter isSqlCandidate
  match sqlFiles with
  | [] => .error "No .sql or .dump files found in extracted archive"
  | [f] => .ok (directory ++ "/" ++ f.1)
  | f :: rest => .ok (directory ++ "/" ++ (pickLargestFile (f :: rest) f 0).1)

/-! ## Restore Executor — error classification and post-attempt flow
(restore-cli.js 1509-1631)

`execSync` throws exactly when the restore command exits nonzero; the catch
block classifies stderr/stdout against three pattern arrays.  Patterns are
case-insensitive regexes; the ones containing `.*` require the two literal
parts to occur in order with no newline in the gap (JS `.` does not match
newlines). -/

/-- An error pattern: a literal substring, or two literals separated by
`.*` in the source regex. -/
inductive ErrPat where
  | lit (t : String)
  | gap (a b : String)

/-- Test of `a.*b` (no `s` flag): some occurrence of `a` is followed by `b`
within the same line. -/
def matchGapCs (a b : List Char) : List Char → Bool
  | [] => a.isEmpty && b.isEmpty
  | c :: rest =>
    (isPrefixCs a (c :: rest) &&
      isSubCs b (((c :: rest).drop a.length).takeWhile (fun ch => ch != '\n'))) ||
    matchGapCs a b rest

/-- `new RegExp(pattern, 'i').test(s)` for the patterns that occur in the
classification arrays. -/
def testPat (s : String) (p : ErrPat) : Bool :=
  match p with
  | .lit t => isSubCs (lcs t) (lcs s)
  | .gap a b => matchGapCs (lcs a) (lcs b) (lcs s)

/-- The `ownershipErrors` array (lines 1544-1552). -/
def ownershipErrors : List ErrPat :=
  [.lit "must be owner of", .lit "permission denied for",
   .gap "role \"" "\" does not exist", .lit "must be member of role",
   .lit "cannot drop owned by", .lit "owner of database", .lit "must be superuser"]

/-- The `recoverableErrors` array (lines 1560-1567). -/
def recoverableErrors : List ErrPat :=
  [.lit "already exists", .lit "does not exist, skipping",
   .lit "multiple primary key", .lit "relation already exists",
   .gap "constraint" "already exists", .lit "duplicate key value"]

/-- The `fatalErrors` array (lines 1575-1583). -/
def fatalErrors : List ErrPat :=
  [.gap "fatal" "authentication failed", .lit "could not connect to server",
   .gap "database" "does not exist", .lit "invalid command",
   .lit "syntax error at or near", .lit "no such file or directory",
   .lit "connection refused"]

/-- `hasOwnershipErrors` (lines 1554-1557): any ownership pattern on stderr
or stdout. -/
def hasOwnershipErrors (errorOutput stdOutput : String) : Bool :=
  ownershipErrors.any (fun p => testPat errorOutput p || testPat stdOutput p)

/-- `hasRecoverableErrors` (lines 1569-1572): any recoverable pattern on
stderr or stdout. -/
def hasRecoverableErrors (errorOutput stdOutput : String) : Bool :=
  recoverableErrors.any (fun p => testPat errorOutput p || testPat stdOutput p)

/-- `hasFatalErrors` (lines 1585-1588): any fatal pattern, tested on stderr
only. -/
def hasFatalErrors (errorOutput : String) : Bool :=
  fatalErrors.any (fun p => testPat errorOutput p)

/-- Classification of a failed restore command (the catch branch,
lines 1590-1601): fatal wins over ownership, then nonzero-exit without a
recoverable pattern is general, anything else is success-with-warnings. -/
inductive RClass where
  | fatal
  | ownership
  | general
  | warnSuccess
  deriving DecidableEq, Repr

/-- The classification decided by the catch branch of `restoreDatabase`. -/
def classifyRestoreError (stdOutput errorOutput : String) (exitCode : Int) : RClass :=
  if hasFatalErrors errorOutput then .fatal
  else if hasOwnershipErrors errorOutput stdOutput then .ownership
  else if exitCode ≠ 0 && !hasRecoverableErrors errorOutput stdOutput then .general
  else .warnSuccess

/-- The calls `restoreDatabase` can make after running the restore command. -/
inductive RestoreAction where
  | verify
  | ownershipFix
  | altRestore
  deriving DecidableEq, Repr

/-- What `restoreDatabase` does after the restore command returns: the
sub-calls issued in order, and the fatal error when one is raised. -/
structure RestoreFlow where
  actions : List RestoreAction
  fatalError : Option String
  deriving DecidableEq, Repr

/-- Shallow embedding of `restoreDatabase` from the `execSync` call to the
end (lines 1512-1626), with the sub-calls (`verifyRestoration`,
`fixDatabaseOwnership`, `tryOwnershipSafeRestore`) recorded as actions.
A zero exit takes the non-throwing path (`restoreSuccessful = true`); a
nonzero exit enters the catch and is classified.  Fatal classification
throws before any sub-call; ownership and general failures take the
verify / ownership-fix / re-verify path, and general failures additionally
run the alternative-restore ladder and a final verification. -/
def restoreDatabasePostExec (exitCode : Int) (stdOutput errorOutput : String) : RestoreFlow :=
  if exitCode = 0 then
    { actions := [.verify], fatalError := none }
  else
    match classifyRestoreError stdOutput errorOutput exitCode with
    | .fatal =>
      { actions := [],
        fatalError := some ("Database restore failed with fatal error: " ++
          (if errorOutput ≠ "" then errorOutput
           else if stdOutput ≠ "" then stdOutput else "Unknown error")) }
    | .ownership =>
      { actions := [.verify, .ownershipFix, .verify], fatalError := none }
    | .general =>
      { actions := [.verify, .ownershipFix, .verify, .altRestore, .verify], fatalError := none }
    | .warnSuccess =>
      { actions := [.verify], fatalError := none }

/-! ## Verification Gate — `verifyRestoration` (restore-cli.js 1633-1821)

The database answers are passed in: `none` models a query whose `execSync`
throws.  The result pairs the log lines with the verdict; the verdict
depends only on connectivity and the table-count output. -/

/-- Tool answers consumed by one run of `verifyRestoration`. -/
structure VerifyEnv where
  connectOk : Bool
  tableCountOut : Option String
  detailedListingOut : Option String
  simpleListingOut : Option String
  sizeOut : Option String
  sequenceCountOut : Option String
  viewCountOut : Option String
  deriving DecidableEq

/-- Value of a digits-only decimal string, `0` when empty — the result of
`parseInt(x) || 0` on the sanitized count. -/
def digitsToNat (l : List Char) : Nat :=
  l.foldl (fun n c => n * 10 + (c.toNat - '0'.toNat)) 0

/-- The sanitization of the scalar count (line 1676): trim, strip newlines,
strip every non-digit, parse, defaulting to `0` — i.e. the number formed by
the digits of the raw output. -/
def sanitizeCount (s : String) : Nat :=
  digitsToNat (s.data.filter Char.isDigit)

/-- The sanitized table count used for the verdict: a failed count query is
replaced by the string `"0"` (line 1673). -/
def verifyTableCount (e : VerifyEnv) : Nat :=
  sanitizeCount (e.tableCountOut.getD "0")

/-- Shallow embedding of `verifyRestoration(dbName)`: connectivity check
(throwing on failure), table count with the `'0'` fallback, then the
detailed listing with its simple fallback, the size, sequence and view
queries — each in its own try/catch that only logs — and the final verdict:
an error when the sanitized count is zero, `true` otherwise. -/
def verifyRestoration (e : VerifyEnv) : List String × Except String Bool :=
  if e.connectOk = false then
    ([], .error "Cannot connect to database")
  else
    let l1 := ["Database connection: Success"]
    let l2 := l1 ++ (match e.tableCountOut with
      | some _ => []
      | none => ["Warning: Could not execute table count query"])
    let totalTableCount := verifyTableCount e
    let l3 := l2 ++ (match e.detailedListingOut with
      | some _ => ["Tables with data listed"]
      | none =>
        match e.simpleListingOut with
        | some _ => ["Listing tables with the simple method"]
        | none => ["Could not list tables"])
    let l4 := l3 ++ (match e.sizeOut with
      | some s => ["Database size: " ++ s]
      | none => ["Could not determine database size"])
    let l5 := l4 ++ (match e.sequenceCountOut with
      | some s => ["Sequences found: " ++ s]
      | none => [])
    let l6 := l5 ++ (match e.viewCountOut with
      | some s => ["Views found: " ++ s]
      | none => [])
    if totalTableCount = 0 then
      (l6, .error "Database restoration verification failed - no tables found")
    else
      (l6, .ok true)

/-! ## Ownership Normalizer — `fixDatabaseOwnership` (restore-cli.js 1037-1261)

Every `execSync` of the source sits inside a try/catch that only warns, so
the embedding is a total function returning the trace of issued commands.
An oracle maps each command to its outcome (`ok` output or `error`); the
oracle is consulted exactly where the source would run the command, and a
failure skips exactly what the corresponding catch skips. -/

/-- The psql commands `fixDatabaseOwnership` can issue.  Object names carry
the trimming applied by the source before interpolation. -/
inductive PgCmd where
  | alterDatabaseOwner
  | grantAllOnDatabase
  | grantCreateOnDatabase
  | schemaQuery
  | alterSchemaOwner (s : String)
  | grantAllOnSchema (s : String)
  | grantUsageOnSchema (s : String)
  | grantAllOnPublic
  | grantUsageOnPublic
  | tableQuery
  | alterTableOwner (s t : String)
  | grantAllOnTable (s t : String)
  | sequenceQuery
  | alterSequenceOwner (s q : String)
  | grantAllOnSequence (s q : String)
  | viewQuery
  | alterViewOwner (s v : String)
  | functionQuery
  | alterFunctionOwner (s f a : String)
  deriving DecidableEq, Repr

/-- Outcome of each command: its stdout, or the thrown error. -/
def PgOracle := PgCmd → Except String String

/-- `.trim().split('\n').filter(s => s.trim())`: the line parsing applied
to every catalog-query output. -/
def parseLines (out : String) : List String :=
  ((splitOnC '\n' (trimCs out.data)).filter (fun l => !(trimCs l).isEmpty)).map
    (fun l => String.mk l)

/-- `line.trim().split('|')` with `parts.length >= 2`: the first two
trimmed fields. -/
def parsePipe2 (line : String) : Option (String × String) :=
  match splitOnC '|' (trimCs line.data) with
  | a :: b :: _ => some (String.mk (trimCs a), String.mk (trimCs b))
  | _ => none

/-- `line.trim().split('|')` with `parts.length >= 3`: the first three
trimmed fields. -/
def parsePipe3 (line : String) : Option (String × String × String) :=
  match splitOnC '|' (trimCs line.data) with
  | a :: b :: c :: _ => some (String.mk (trimCs a), String.mk (trimCs b), String.mk (trimCs c))
  | _ => none

/-- Step 1 (lines 1046-1058): the three database-level commands, each in
its own try/catch, so all three are always attempted. -/
def dbOwnershipStep : List PgCmd :=
  [.alterDatabaseOwner, .grantAllOnDatabase, .grantCreateOnDatabase]

/-- Per-schema commands (lines 1086-1094): one try wraps the three
commands, so a failure skips the rest for that schema only. -/
def schemaObjectCmds (o : PgOracle) (s : String) : List PgCmd :=
  match o (.alterSchemaOwner s) with
  | .error _ => [.alterSchemaOwner s]
  | .ok _ =>
    match o (.grantAllOnSchema s) with
    | .error _ => [.alterSchemaOwner s, .grantAllOnSchema s]
    | .ok _ => [.alterSchemaOwner s, .grantAllOnSchema s, .grantUsageOnSchema s]

/-- The unconditional public-schema grants (lines 1101-1113), one try for
both commands. -/
def publicSchemaCmds (o : PgOracle) : List PgCmd :=
  match o .grantAllOnPublic with
  | .error _ => [.grantAllOnPublic]
  | .ok _ => [.grantAllOnPublic, .grantUsageOnPublic]

/-- Step 2 (lines 1060-1117): enumerate schemas; a failing enumeration
skips the whole step (including the public grants); a failing schema is
skipped individually. -/
def schemaStep (o : PgOracle) : List PgCmd :=
  .schemaQuery ::
    match o .schemaQuery with
    | .error _ => []
    | .ok out =>
      ((parseLines out).map (fun schema =>
        if String.mk (trimCs schema.data) ≠ "" ∧ String.mk (trimCs schema.data) ≠ "public" then
          schemaObjectCmds o (String.mk (trimCs schema.data))
        else [])).flatten ++ publicSchemaCmds o

/-- Per-table commands (lines 1138-1149): one try wraps both. -/
def tableObjectCmds (o : PgOracle) (s t : String) : List PgCmd :=
  match o (.alterTableOwner s t) with
  | .error _ => [.alterTableOwner s t]
  | .ok _ => [.alterTableOwner s t, .grantAllOnTable s t]

/-- Step 3 (lines 1119-1154): enumerate tables; rows without two fields are
skipped; a failing table is skipped individually. -/
def tableStep (o : PgOracle) : List PgCmd :=
  .tableQuery ::
    match o .tableQuery with
    | .error _ => []
    | .ok out =>
      ((parseLines out).map (fun line =>
        match parsePipe2 line with
        | some (s, t) => tableObjectCmds o s t
        | none => [])).flatten

/-- Per-sequence commands (lines 1175-1186): one try wraps both. -/
def sequenceObjectCmds (o : PgOracle) (s q : String) : List PgCmd :=
  match o (.alterSequenceOwner s q) with
  | .error _ => [.alterSequenceOwner s q]
  | .ok _ => [.alterSequenceOwner s q, .grantAllOnSequence s q]

/-- Step 4 (lines 1156-1191): enumerate sequences, same shape as tables. -/
def sequenceStep (o : PgOracle) : List PgCmd :=
  .sequenceQuery ::
    match o .sequenceQuery with
    | .error _ => []
    | .ok out =>
      ((parseLines out).map (fun line =>
        match parsePipe2 line with
        | some (s, q) => sequenceObjectCmds o s q
        | none => [])).flatten

/-- Step 5 (lines 1193-1221): enumerate views, one alter per view in its
own try. -/
def viewStep (o : PgOracle) : List PgCmd :=
  .viewQuery ::
    match o .viewQuery with
    | .error _ => []
    | .ok out =>
      ((parseLines out).map (fun line =>
        match parsePipe2 line with
        | some (s, v) => [PgCmd.alterViewOwner s v]
        | none => [])).flatten

/-- Step 6 (lines 1223-1254): enumerate functions (schema, name, argument
signature), one alter per function in its own try. -/
def functionStep (o : PgOracle) : List PgCmd :=
  .functionQuery ::
    match o .functionQuery with
    | .error _ => []
    | .ok out =>
      ((parseLines out).map (fun line =>
        match parsePipe3 line with
        | some (s, f, a) => [PgCmd.alterFunctionOwner s f a]
        | none => [])).flatten

/-- Shallow embedding of `fixDatabaseOwnership(dbName)`: the six sub-steps
in order.  The function is total — it returns a trace for every oracle —
because in the source every command sits inside a try/catch and the outer
catch (lines 1258-1260) only warns. -/
def fixDatabaseOwnership (o : PgOracle) : List PgCmd :=
  dbOwnershipStep ++ schemaStep o ++ tableStep o ++ sequenceStep o ++ viewStep o ++ functionStep o

/-! ## Cleanup — `cleanup` and the process handlers
(restore-cli.js 1831-1852 and 2532-2553)

The instance method is guarded by `this.cleanupDone`; the module-level
wrapper used by the SIGINT/SIGTERM/exit handlers constructs a fresh
`DatabaseRestoreManager` on every call, so each call starts with the guard
cleared.  `removeOk` models whether the removal command (or its manual
fallback) succeeds. -/

/-- Result of one `cleanup()` invocation: the directory state afterwards,
the guard flag afterwards, whether the guarded body executed, and whether
anything was removed. -/
structure CleanupRun where
  dirExists : Bool
  cleanupDoneAfter : Bool
  bodyRan : Bool
  removed : Bool
  deriving DecidableEq, Repr

/-- Shallow embedding of the instance method `cleanup()` (lines 1831-1852)
for a manager whose flag is `cleanupDone`, a temp directory in state
`dirExists`, and removal outcome `removeOk`. -/
def instanceCleanup (cleanupDone : Bool) (dirExists : Bool) (removeOk : Bool) : CleanupRun :=
  if cleanupDone then
    { dirExists := dirExists, cleanupDoneAfter := cleanupDone, bodyRan := false, removed := false }
  else if dirExists then
    if removeOk then
      { dirExists := false, cleanupDoneAfter := true, bodyRan := true, removed := true }
    else
      { dirExists := true, cleanupDoneAfter := true, bodyRan := true, removed := false }
  else
    { dirExists := false, cleanupDoneAfter := true, bodyRan := true, removed := false }

/-- Shallow embedding of the module-level `cleanup` arrow function
(lines 2532-2537) installed on SIGINT, SIGTERM and `exit`: it constructs a
new `DatabaseRestoreManager` — whose constructor sets `cleanupDone = false`
(line 52) — and calls its `cleanup()`. -/
def moduleCleanup (dirExists : Bool) (removeOk : Bool) : CleanupRun :=
  instanceCleanup false dirExists removeOk

/-! ## Theorems -/

/-- Helper: every result of the `findAnyDatabaseFile` scan loop is tagged
`unknown` with priority 10. -/
theorem findAnyDatabaseFileFrom_format :
    ∀ (l : List FileInfo) (f : Found), findAnyDatabaseFileFrom l = some f →
      f.format = "unknown" ∧ f.priority = 10
  | [], f, h => by simp [findAnyDatabaseFileFrom] at h
  | x :: rest, f, h => by
    unfold findAnyDatabaseFileFrom at h
    split at h
    · cases h
      exact ⟨rfl, rfl⟩
    · exact findAnyDatabaseFileFrom_format rest f h

/-- C10: `detectDumpFormat` is total on every input — readable, unreadable
or nonexistent — and its result is one of `sql`, `custom`, `directory`; in
particular it never returns `unknown`, which only the third discovery stage
(`findAnyDatabaseFile`) can introduce. -/
theorem detectDumpFormat_total_and_no_unknown (filePath : String)
    (content : Option (List Char)) (pfx : String) (entries : FsTree) :
    (detectDumpFormat filePath content = "sql" ∨
     detectDumpFormat filePath content = "custom" ∨
     detectDumpFormat filePath content = "directory") ∧
    detectDumpFormat filePath content ≠ "unknown" ∧
    (findAnyDatabaseFile pfx entries).elim True
      (fun f => f.format = "unknown" ∧ f.priority = 10) := by
  have hrange : detectDumpFormat filePath content = "sql" ∨
      detectDumpFormat filePath content = "custom" ∨
      detectDumpFormat filePath content = "directory" := by
    cases content with
    | none =>
      simp only [detectDumpFormat]
      split_ifs <;> decide
    | some bytes =>
      simp only [detectDumpFormat]
      split_ifs <;> decide
  refine ⟨hrange, ?_, ?_⟩
  · rcases hrange with h | h | h <;> rw [h] <;> decide
  · cases hfa : findAnyDatabaseFile pfx entries with
    | none => exact trivial
    | some f =>
      exact findAnyDatabaseFileFrom_format _ f hfa

/-- C7 counterexample: a file whose first five bytes are the PGDMP magic
but whose extension is `.sql` is detected as `sql`, not `custom` — the
extension check precedes the content sniff. -/
theorem detectDumpFormat_ext_overrides_magic :
    ("PGDMP12".data.take 5 = pgdmpMagic) ∧
    detectDumpFormat "backup.sql" (some "PGDMP12".data) = "sql" ∧
    detectDumpFormat "backup.sql" (some "PGDMP12".data) ≠ "custom" := by
  decide

/-- C7 (amended): for every readable file whose lowercased extension is
neither `.sql` nor `.dump` and whose first five bytes equal the PGDMP magic
sequence, `detectDumpFormat` returns `custom`. -/
theorem detectDumpFormat_magic_custom (filePath : String) (bytes : List Char)
    (h1 : lowerStr (extnameOf filePath) ≠ ".sql")
    (h2 : lowerStr (extnameOf filePath) ≠ ".dump")
    (h3 : bytes.take 5 = pgdmpMagic) :
    detectDumpFormat filePath (some bytes) = "custom" := by
  unfold detectDumpFormat
  simp only [if_neg h1, if_neg h2]
  have h5 : (bytes.take 512).take 5 = pgdmpMagic := by
    rw [List.take_take]
    simpa using h3
  simp [h5]

/-- C7 witness: a dot-free path carrying the magic is detected as `custom`. -/
theorem detectDumpFormat_magic_custom_witness :
    detectDumpFormat "mydump" (some "PGDMP12".data) = "custom" :=
  detectDumpFormat_magic_custom "mydump" "PGDMP12".data
    (by decide) (by decide) (by decide)

/-- C1 counterexample: a nonzero-exit attempt whose stderr contains
"password authentication failed" but no preceding "fatal" is classified as
a general failure, so the ownership fix and the alternative-restore ladder
DO run — the fatal pattern is `fatal.*authentication failed`. -/
theorem restore_password_auth_without_fatal_is_general :
    isSubCs "password authentication failed".data
      "password authentication failed for user admin".data = true ∧
    classifyRestoreError "" "password authentication failed for user admin" 1 =
      RClass.general ∧
    restoreDatabasePostExec 1 "" "password authentication failed for user admin" =
      { actions := [.verify, .ownershipFix, .verify, .altRestore, .verify],
        fatalError := none } := by
  decide

/-- C1 (amended): for every attempt with nonzero exit whose stderr matches
the fatal pattern `fatal.*authentication failed` (case-insensitive, gap on
one line), `restoreDatabase` raises immediately: no verification, no
ownership fix and no alternative-restore rung is invoked. -/
theorem restore_fatal_auth_pattern_aborts (exitCode : Int) (stdOutput errorOutput : String)
    (hx : exitCode ≠ 0)
    (h : testPat errorOutput (.gap "fatal" "authentication failed") = true) :
    (restoreDatabasePostExec exitCode stdOutput errorOutput).actions = [] ∧
    (restoreDatabasePostExec exitCode stdOutput errorOutput).fatalError.isSome = true := by
  have hf : hasFatalErrors errorOutput = true := by
    simp [hasFatalErrors, fatalErrors, List.any_cons, h]
  simp [restoreDatabasePostExec, hx, classifyRestoreError, hf]

/-- C1 witness: a realistic authentication-failure stderr aborts with no
sub-calls. -/
theorem restore_fatal_auth_pattern_aborts_witness :
    (restoreDatabasePostExec 1 ""
      "psql: error: FATAL:  password authentication failed for user admin").actions = [] ∧
    (restoreDatabasePostExec 1 ""
      "psql: error: FATAL:  password authentication failed for user admin").fatalError.isSome = true :=
  restore_fatal_auth_pattern_aborts 1 ""
    "psql: error: FATAL:  password authentication failed for user admin"
    (by decide) (by decide)

/-- C2: a nonzero-exit attempt matching a recoverable pattern and no fatal
and no ownership pattern is classified success-with-warnings — not a
general failure — and triggers no ownership fix, no alternative restore and
no error: only the verification gate runs. -/
theorem restore_recoverable_only_is_success (exitCode : Int) (stdOutput errorOutput : String)
    (hx : exitCode ≠ 0)
    (hrec : hasRecoverableErrors errorOutput stdOutput = true)
    (hfat : hasFatalErrors errorOutput = false)
    (hown : hasOwnershipErrors errorOutput stdOutput = false) :
    classifyRestoreError stdOutput errorOutput exitCode = RClass.warnSuccess ∧
    restoreDatabasePostExec exitCode stdOutput errorOutput =
      { actions := [.verify], fatalError := none } := by
  have hc : classifyRestoreError stdOutput errorOutput exitCode = .warnSuccess := by
    simp [classifyRestoreError, hfat, hown, hrec]
  exact ⟨hc, by simp [restoreDatabasePostExec, hx, hc]⟩

/-- C2 witness: stderr containing only "relation already exists" with exit
code 1. -/
theorem restore_recoverable_only_is_success_witness :
    classifyRestoreError "" "ERROR:  relation already exists" 1 = RClass.warnSuccess ∧
    restoreDatabasePostExec 1 "" "ERROR:  relation already exists" =
      { actions := [.verify], fatalError := none } :=
  restore_recoverable_only_is_success 1 "" "ERROR:  relation already exists"
    (by decide) (by decide) (by decide) (by decide)

/-- C3: whenever the attempt is not classified fatal — the command
succeeded, or its stderr matches no fatal pattern — `verifyRestoration` is
invoked first, whatever the exit code and whether the classification is
success, ownership issue or general failure, and no error is raised before
it. -/
theorem restore_nonfatal_always_verifies (exitCode : Int) (stdOutput errorOutput : String)
    (h : exitCode = 0 ∨ hasFatalErrors errorOutput = false) :
    (restoreDatabasePostExec exitCode stdOutput errorOutput).actions.head? =
      some RestoreAction.verify ∧
    (restoreDatabasePostExec exitCode stdOutput errorOutput).fatalError = none := by
  by_cases hx : exitCode = 0
  · simp [restoreDatabasePostExec, hx]
  · have hff : hasFatalErrors errorOutput = false := by
      rcases h with h | h
      · exact absurd h hx
      · exact h
    have hcl : classifyRestoreError stdOutput errorOutput exitCode = .ownership ∨
        classifyRestoreError stdOutput errorOutput exitCode = .general ∨
        classifyRestoreError stdOutput errorOutput exitCode = .warnSuccess := by
      unfold classifyRestoreError
      simp only [hff]
      split_ifs <;> simp_all
    rcases hcl with hc | hc | hc <;> simp [restoreDatabasePostExec, hx, hc]

/-- C3 witness: an unclassifiable failing attempt still verifies first. -/
theorem restore_nonfatal_always_verifies_witness :
    (restoreDatabasePostExec 1 "" "ERROR:  disk quota exceeded").actions.head? =
      some RestoreAction.verify ∧
    (restoreDatabasePostExec 1 "" "ERROR:  disk quota exceeded").fatalError = none :=
  restore_nonfatal_always_verifies 1 "" "ERROR:  disk quota exceeded"
    (Or.inr (by decide))

/-- Helper: the verdict of `verifyRestoration` as a function of
connectivity and the sanitized table count alone. -/
theorem verifyRestoration_verdict (x : VerifyEnv) :
    (verifyRestoration x).2 =
      if x.connectOk = false then Except.error "Cannot connect to database"
      else if verifyTableCount x = 0 then
        Except.error "Database restoration verification failed - no tables found"
      else Except.ok true := by
  cases hc : x.connectOk with
  | false => simp [verifyRestoration, hc]
  | true => by_cases h0 : verifyTableCount x = 0 <;> simp [verifyRestoration, hc, h0]

/-- C4: the Verification Gate passes exactly when the sanitized non-system
table count is positive; a zero count raises the diagnostic error, a
connectivity failure raises its own error, and the outcomes of the
secondary queries (detailed and simple table listings, size, sequence
count, view count) never change the verdict. -/
theorem verifyRestoration_gate_spec (e : VerifyEnv) :
    ((verifyRestoration e).2 = .ok true ↔ (e.connectOk = true ∧ 0 < verifyTableCount e)) ∧
    (e.connectOk = false →
      (verifyRestoration e).2 = .error "Cannot connect to database") ∧
    (e.connectOk = true → verifyTableCount e = 0 →
      (verifyRestoration e).2 =
        .error "Database restoration verification failed - no tables found") ∧
    (∀ e' : VerifyEnv, e'.connectOk = e.connectOk → e'.tableCountOut = e.tableCountOut →
      (verifyRestoration e').2 = (verifyRestoration e).2) := by
  refine ⟨?_, ?_, ?_, ?_⟩
  · rw [verifyRestoration_verdict]
    constructor
    · intro h
      by_cases h1 : e.connectOk = false
      · rw [if_pos h1] at h
        exact absurd h (by simp)
      · rw [if_neg h1] at h
        by_cases h2 : verifyTableCount e = 0
        · rw [if_pos h2] at h
          exact absurd h (by simp)
        · exact ⟨by simpa using h1, Nat.pos_of_ne_zero h2⟩
    · rintro ⟨h1, h2⟩
      rw [if_neg (by simp [h1]), if_neg (Nat.pos_iff_ne_zero.mp h2)]
  · intro h
    rw [verifyRestoration_verdict, if_pos h]
  · intro h1 h2
    rw [verifyRestoration_verdict]
    simp [h1, h2]
  · intro e' hco hct
    have hcount : verifyTableCount e' = verifyTableCount e := by
      unfold verifyTableCount
      rw [hct]
    rw [verifyRestoration_verdict, verifyRestoration_verdict, hco, hcount]

/-- Example gate environments used by the C4 witness. -/
def envConnFail : VerifyEnv :=
  { connectOk := false, tableCountOut := some "3", detailedListingOut := none,
    simpleListingOut := none, sizeOut := none, sequenceCountOut := none, viewCountOut := none }

/-- Environment whose secondary queries all fail. -/
def envSecondaryFail : VerifyEnv :=
  { connectOk := true, tableCountOut := some "3", detailedListingOut := none,
    simpleListingOut := none, sizeOut := none, sequenceCountOut := none, viewCountOut := none }

/-- Environment whose secondary queries all succeed. -/
def envSecondaryOk : VerifyEnv :=
  { connectOk := true, tableCountOut := some "3", detailedListingOut := some "t",
    simpleListingOut := some "t", sizeOut := some "8 MB", sequenceCountOut := some "2",
    viewCountOut := some "1" }

/-- C4 witness: a connectivity failure throws, and changing every
secondary-query outcome leaves the verdict unchanged. -/
theorem verifyRestoration_gate_spec_witness :
    (verifyRestoration envConnFail).2 = .error "Cannot connect to database" ∧
    (verifyRestoration envSecondaryFail).2 = (verifyRestoration envSecondaryOk).2 :=
  ⟨(verifyRestoration_gate_spec envConnFail).2.1 rfl,
   (verifyRestoration_gate_spec envSecondaryOk).2.2.2 envSecondaryFail rfl rfl⟩

/-- Helper: a prefix of a list is a prefix of any extension of it. -/
theorem isPrefixCs_append : ∀ (a h t : List Char),
    isPrefixCs a h = true → isPrefixCs a (h ++ t) = true
  | [], _, _, _ => rfl
  | _ :: _, [], _, hp => by simp [isPrefixCs] at hp
  | a :: as, b :: bs, t, hp => by
    simp only [List.cons_append, isPrefixCs, Bool.and_eq_true] at hp ⊢
    exact ⟨hp.1, isPrefixCs_append as bs t hp.2⟩

/-- Helper: every list is a prefix of itself followed by anything. -/
theorem isPrefixCs_self : ∀ (a t : List Char), isPrefixCs a (a ++ t) = true
  | [], _ => rfl
  | c :: cs, t => by
    simp only [List.cons_append, isPrefixCs, beq_self_eq_true, Bool.true_and]
    exact isPrefixCs_self cs t

/-- Helper: the empty needle occurs in every haystack. -/
theorem isSubCs_nil_needle : ∀ (h : List Char), isSubCs [] h = true
  | [] => rfl
  | _ :: _ => by simp [isSubCs, isPrefixCs]

/-- Helper: a list occurs in itself followed by anything. -/
theorem isSubCs_self_append : ∀ (n t : List Char), isSubCs n (n ++ t) = true
  | [], t => isSubCs_nil_needle t
  | a :: as, t => by
    simp only [List.cons_append, isSubCs, Bool.or_eq_true]
    exact Or.inl (by simpa using isPrefixCs_self (a :: as) t)

/-- Helper: an occurrence survives prepending to the haystack. -/
theorem isSubCs_append_left : ∀ (n pre h : List Char),
    isSubCs n h = true → isSubCs n (pre ++ h) = true
  | _, [], _, hs => by simpa using hs
  | n, c :: pre, h, hs => by
    simp only [List.cons_append, isSubCs, Bool.or_eq_true]
    exact Or.inr (isSubCs_append_left n pre h hs)

/-- Helper: an occurrence survives appending to the haystack. -/
theorem isSubCs_append_right : ∀ (n h suf : List Char),
    isSubCs n h = true → isSubCs n (h ++ suf) = true
  | n, [], suf, hs => by
    cases n with
    | nil => simpa using isSubCs_nil_needle suf
    | cons a as => simp [isSubCs] at hs
  | n, c :: h, suf, hs => by
    simp only [isSubCs, Bool.or_eq_true] at hs ⊢
    rcases hs with hp | hrest
    · exact Or.inl (by simpa using isPrefixCs_append n (c :: h) suf hp)
    · exact Or.inr (isSubCs_append_right n h suf hrest)

/-- Helper: string append acts as append on the character data. -/
theorem strDataAppend (a b : String) : (a ++ b).data = a.data ++ b.data := rfl

/-- Helper: each joined element occurs in the comma-joined string. -/
theorem joinComma_mem_sub : ∀ (names : List String) (x : String), x ∈ names →
    isSubCs x.data (joinComma names).data = true
  | [], x, hx => absurd hx (List.not_mem_nil x)
  | [s], x, hx => by
    have hx' : x = s := by simpa using hx
    subst hx'
    simpa using isSubCs_self_append x.data []
  | s :: t :: rest, x, hx => by
    have hjc : joinComma (s :: t :: rest) = s ++ ", " ++ joinComma (t :: rest) := rfl
    rw [hjc, strDataAppend, strDataAppend, List.append_assoc]
    rcases List.mem_cons.mp hx with rfl | hx'
    · exact isSubCs_self_append x.data _
    · exact isSubCs_append_left _ _ _
        (isSubCs_append_left _ _ _ (joinComma_mem_sub (t :: rest) x hx'))

/-- Helper: the discovery-failure message mentions every extracted file. -/
theorem noDumpFoundMessage_mentions (files : List FileInfo) (fi : FileInfo)
    (hfi : fi ∈ files) :
    isSubCs fi.name.data (noDumpFoundMessage files).data = true := by
  unfold noDumpFoundMessage
  rw [strDataAppend]
  exact isSubCs_append_left _ _ _
    (joinComma_mem_sub _ _ (List.mem_map_of_mem _ hfi))

/-- Helper: a hit of the `findBinaryDump` scan comes from a dot-free file
larger than 1024 bytes whose content contains the PGDMP magic somewhere,
and is tagged `custom` with priority 2. -/
theorem findBinaryDumpFrom_spec :
    ∀ (l : List FileInfo) (f : Found), findBinaryDumpFrom l = some f →
      ∃ fi ∈ l, f = ⟨fi.path, "custom", 2, fi.size⟩ ∧
        fi.name.data.contains '.' = false ∧ 1024 < fi.size ∧
        isSubCs pgdmpMagic fi.content = true
  | [], f, h => by simp [findBinaryDumpFrom] at h
  | x :: rest, f, h => by
    unfold findBinaryDumpFrom at h
    split at h
    case isTrue hcond =>
      cases h
      simp only [Bool.and_eq_true, Bool.not_eq_true', decide_eq_true_eq] at hcond
      exact ⟨x, List.mem_cons_self .., rfl, hcond.1.1, hcond.1.2, hcond.2⟩
    case isFalse hcond =>
      obtain ⟨fi, hmem, hrest⟩ := findBinaryDumpFrom_spec rest f h
      exact ⟨fi, List.mem_cons_of_mem _ hmem, hrest⟩

/-- C5 (amended): the dump-discovery chain of `extractBackupFile` applies
its three stages in strict order with the first non-empty result winning:
the recursive extension search, then the scan for dot-free files larger
than 1024 bytes whose content contains the PGDMP magic anywhere (tagged
`custom`), then the filename-pattern scan (tagged `unknown`, priority 10);
when all three are empty, it fails with the hard error whose message
mentions every extracted filename. -/
theorem extractBackupFileDiscovery_stages (pfx : String) (entries : FsTree) :
    (∀ f, searchForDatabaseFile pfx entries = some f →
      extractBackupFileDiscovery pfx entries = .ok f) ∧
    (searchForDatabaseFile pfx entries = none →
      ∀ f, findBinaryDump pfx entries = some f →
        extractBackupFileDiscovery pfx entries = .ok f) ∧
    (searchForDatabaseFile pfx entries = none → findBinaryDump pfx entries = none →
      ∀ f, findAnyDatabaseFile pfx entries = some f →
        extractBackupFileDiscovery pfx entries = .ok f) ∧
    (searchForDatabaseFile pfx entries = none → findBinaryDump pfx entries = none →
      findAnyDatabaseFile pfx entries = none →
        extractBackupFileDiscovery pfx entries =
          .error (noDumpFoundMessage (getAllFilesEntries pfx entries)) ∧
        ∀ fi ∈ getAllFilesEntries pfx entries,
          isSubCs fi.name.data
            (noDumpFoundMessage (getAllFilesEntries pfx entries)).data = true) ∧
    (∀ f, findBinaryDump pfx entries = some f →
      ∃ fi ∈ getAllFilesEntries pfx entries, f = ⟨fi.path, "custom", 2, fi.size⟩ ∧
        fi.name.data.contains '.' = false ∧ 1024 < fi.size ∧
        isSubCs pgdmpMagic fi.content = true) ∧
    (∀ f, findAnyDatabaseFile pfx entries = some f →
      f.format = "unknown" ∧ f.priority = 10) := by
  refine ⟨?_, ?_, ?_, ?_, ?_, ?_⟩
  · intro f h
    simp [extractBackupFileDiscovery, h]
  · intro h1 f h
    simp [extractBackupFileDiscovery, h1, h]
  · intro h1 h2 f h
    simp [extractBackupFileDiscovery, h1, h2, h]
  · intro h1 h2 h3
    refine ⟨by simp [extractBackupFileDiscovery, h1, h2, h3], ?_⟩
    intro fi hfi
    exact noDumpFoundMessage_mentions _ fi hfi
  · intro f h
    exact findBinaryDumpFrom_spec _ f h
  · intro f h
    exact findAnyDatabaseFileFrom_format _ f h

/-- The extracted tree of the C5 counterexample and witness: one dot-free
file whose content carries the PGDMP magic away from its first bytes. -/
def midMagicTree : FsTree :=
  .file "pgdata" 2000 ("xx".data ++ pgdmpMagic) .nil

/-- C5 counterexample: stage 1 is empty, no extracted file has the magic in
its first five bytes, and the filename-pattern stage is also empty, yet
discovery succeeds with a `custom` candidate instead of failing — stage 2
accepts a magic occurring anywhere in the content, not only at the start. -/
theorem extractBackupFileDiscovery_stage2_counterexample :
    searchForDatabaseFile "/tmp/extracted" midMagicTree = none ∧
    ((getAllFilesEntries "/tmp/extracted" midMagicTree).all
      (fun fi => !isPrefixCs pgdmpMagic fi.content)) = true ∧
    findAnyDatabaseFile "/tmp/extracted" midMagicTree = none ∧
    extractBackupFileDiscovery "/tmp/extracted" midMagicTree =
      .ok ⟨"/tmp/extracted/pgdata", "custom", 2, 2000⟩ := by
  decide

/-- C5 witness: on the same tree, stage 1 is empty and stage 2 hits, so
the chain returns the stage-2 candidate. -/
theorem extractBackupFileDiscovery_stages_witness :
    extractBackupFileDiscovery "/tmp/extracted" midMagicTree =
      .ok ⟨"/tmp/extracted/pgdata", "custom", 2, 2000⟩ :=
  (extractBackupFileDiscovery_stages "/tmp/extracted" midMagicTree).2.1
    (by decide) _ (by decide)

/-- C9: the per-instance `cleanupDone` guard does make a second call on the
same manager a no-op, but each exit-path handler calls the module-level
wrapper, which constructs a fresh manager: the cleanup body re-executes on
every invocation, and when the first removal failed a later invocation
removes files again — cleanup is not guarded to run at most once per run. -/
theorem cleanup_guard_defeated_by_fresh_manager :
    (instanceCleanup true true true).bodyRan = false ∧
    (moduleCleanup true true).bodyRan = true ∧
    (moduleCleanup (moduleCleanup true true).dirExists true).bodyRan = true ∧
    (moduleCleanup true false).removed = false ∧
    (moduleCleanup true false).dirExists = true ∧
    (moduleCleanup (moduleCleanup true false).dirExists true).removed = true := by
  decide

/-- Helper: the `forEach` selection loop of `findExtractedSqlFile` returns
an element of its candidates whose recorded size bounds every candidate. -/
theorem pickLargestFile_spec :
    ∀ (l : List (String × Nat)) (b : String × Nat) (bs : Nat), bs ≤ b.2 →
      (pickLargestFile l b bs = b ∨ pickLargestFile l b bs ∈ l) ∧
      (∀ x ∈ l, x.2 ≤ (pickLargestFile l b bs).2) ∧
      bs ≤ (pickLargestFile l b bs).2
  | [], b, bs, h => by simp [pickLargestFile, h]
  | c :: rest, b, bs, h => by
    unfold pickLargestFile
    by_cases hc : bs < c.2
    · rw [if_pos hc]
      obtain ⟨hmem, hbound, hbs⟩ := pickLargestFile_spec rest c c.2 (le_refl _)
      refine ⟨?_, ?_, ?_⟩
      · rcases hmem with h' | h'
        · exact Or.inr (by rw [h']; exact List.mem_cons_self ..)
        · exact Or.inr (List.mem_cons_of_mem _ h')
      · intro x hx
        rcases List.mem_cons.mp hx with rfl | hx'
        · exact hbs
        · exact hbound x hx'
      · exact le_trans (le_of_lt hc) hbs
    · rw [if_neg hc]
      obtain ⟨hmem, hbound, hbs⟩ := pickLargestFile_spec rest b bs h
      refine ⟨?_, ?_, ?_⟩
      · rcases hmem with h' | h'
        · exact Or.inl h'
        · exact Or.inr (List.mem_cons_of_mem _ h')
      · intro x hx
        rcases List.mem_cons.mp hx with rfl | hx'
        · exact le_trans (Nat.le_of_not_lt hc) hbs
        · exact hbound x hx'
      · exact hbs

/-- C6: with exactly one top-level `.sql`/`.dump` candidate,
`findExtractedSqlFile` returns it; with two or more, it returns a candidate
whose byte size is at least every candidate's size. -/
theorem findExtractedSqlFile_selects_largest (directory : String)
    (files : List (String × Nat)) :
    (∀ c, files.filter isSqlCandidate = [c] →
      findExtractedSqlFile directory files = .ok (directory ++ "/" ++ c.1)) ∧
    (2 ≤ (files.filter isSqlCandidate).length →
      ∃ c ∈ files.filter isSqlCandidate,
        findExtractedSqlFile directory files = .ok (directory ++ "/" ++ c.1) ∧
        ∀ x ∈ files.filter isSqlCandidate, x.2 ≤ c.2) := by
  constructor
  · intro c hc
    simp [findExtractedSqlFile, hc]
  · intro hlen
    cases hc : files.filter isSqlCandidate with
    | nil =>
      rw [hc] at hlen
      simp at hlen
    | cons f rest =>
      cases rest with
      | nil =>
        rw [hc] at hlen
        simp at hlen
      | cons g rest' =>
        obtain ⟨hmem, hbound, _⟩ :=
          pickLargestFile_spec (f :: g :: rest') f 0 (Nat.zero_le _)
        refine ⟨pickLargestFile (f :: g :: rest') f 0, ?_, ?_, ?_⟩
        · rcases hmem with h' | h'
          · rw [h']
            exact List.mem_cons_self ..
          · exact h'
        · simp [findExtractedSqlFile, hc]
        · exact hbound

/-- C6 witness: among two `.sql` candidates of sizes 5 and 9 the larger one
is selected. -/
theorem findExtractedSqlFile_selects_largest_witness :
    2 ≤ ([("a.sql", 5), ("b.sql", 9), ("notes.txt", 100)].filter isSqlCandidate).length ∧
    ∃ c ∈ [("a.sql", 5), ("b.sql", 9), ("notes.txt", 100)].filter isSqlCandidate,
      findExtractedSqlFile "/tmp/x" [("a.sql", 5), ("b.sql", 9), ("notes.txt", 100)] =
        .ok ("/tmp/x" ++ "/" ++ c.1) ∧
      ∀ x ∈ [("a.sql", 5), ("b.sql", 9), ("notes.txt", 100)].filter isSqlCandidate,
        x.2 ≤ c.2 :=
  ⟨by decide,
   (findExtractedSqlFile_selects_largest "/tmp/x"
     [("a.sql", 5), ("b.sql", 9), ("notes.txt", 100)]).2 (by decide)⟩

/-- Helper: the schema alter command of an eligible schema is always
attempted, whatever the oracle answers elsewhere. -/
theorem mem_schemaStep (o : PgOracle) (out : String) (hok : o .schemaQuery = .ok out)
    (sch : String) (hsch : sch ∈ parseLines out)
    (h1 : String.mk (trimCs sch.data) ≠ "") (h2 : String.mk (trimCs sch.data) ≠ "public") :
    PgCmd.alterSchemaOwner (String.mk (trimCs sch.data)) ∈ schemaStep o := by
  unfold schemaStep
  rw [hok]
  refine List.mem_cons_of_mem _ (List.mem_append.mpr (Or.inl ?_))
  refine List.mem_flatten.mpr ⟨schemaObjectCmds o (String.mk (trimCs sch.data)), ?_, ?_⟩
  · have hm := List.mem_map_of_mem (fun schema =>
      if String.mk (trimCs schema.data) ≠ "" ∧ String.mk (trimCs schema.data) ≠ "public" then
        schemaObjectCmds o (String.mk (trimCs schema.data))
      else []) hsch
    beta_reduce at hm
    rw [if_pos ⟨h1, h2⟩] at hm
    exact hm
  · unfold schemaObjectCmds
    split
    · simp
    · split <;> simp

/-- Helper: the table alter command of every parsed table row is always
attempted. -/
theorem mem_tableStep (o : PgOracle) (out : String) (hok : o .tableQuery = .ok out)
    (line : String) (hline : line ∈ parseLines out) (s t : String)
    (hp : parsePipe2 line = some (s, t)) :
    PgCmd.alterTableOwner s t ∈ tableStep o := by
  unfold tableStep
  rw [hok]
  refine List.mem_cons_of_mem _ ?_
  refine List.mem_flatten.mpr ⟨tableObjectCmds o s t, ?_, ?_⟩
  · have hm := List.mem_map_of_mem (fun line =>
      match parsePipe2 line with
      | some (s, t) => tableObjectCmds o s t
      | none => []) hline
    beta_reduce at hm
    rw [hp] at hm
    exact hm
  · unfold tableObjectCmds
    split <;> simp

/-- Helper: the sequence alter command of every parsed sequence row is
always attempted. -/
theorem mem_sequenceStep (o : PgOracle) (out : String) (hok : o .sequenceQuery = .ok out)
    (line : String) (hline : line ∈ parseLines out) (s q : String)
    (hp : parsePipe2 line = some (s, q)) :
    PgCmd.alterSequenceOwner s q ∈ sequenceStep o := by
  unfold sequenceStep
  rw [hok]
  refine List.mem_cons_of_mem _ ?_
  refine List.mem_flatten.mpr ⟨sequenceObjectCmds o s q, ?_, ?_⟩
  · have hm := List.mem_map_of_mem (fun line =>
      match parsePipe2 line with
      | some (s, q) => sequenceObjectCmds o s q
      | none => []) hline
    beta_reduce at hm
    rw [hp] at hm
    exact hm
  · unfold sequenceObjectCmds
    split <;> simp

/-- Helper: the view alter command of every parsed view row is always
attempted. -/
theorem mem_viewStep (o : PgOracle) (out : String) (hok : o .viewQuery = .ok out)
    (line : String) (hline : line ∈ parseLines out) (s v : String)
    (hp : parsePipe2 line = some (s, v)) :
    PgCmd.alterViewOwner s v ∈ viewStep o := by
  unfold viewStep
  rw [hok]
  refine List.mem_cons_of_mem _ ?_
  refine List.mem_flatten.mpr ⟨[PgCmd.alterViewOwner s v], ?_, by simp⟩
  have hm := List.mem_map_of_mem (fun line =>
    match parsePipe2 line with
    | some (s, v) => [PgCmd.alterViewOwner s v]
    | none => []) hline
  beta_reduce at hm
  rw [hp] at hm
  exact hm

/-- Helper: the function alter command of every parsed function row is
always attempted. -/
theorem mem_functionStep (o : PgOracle) (out : String) (hok : o .functionQuery = .ok out)
    (line : String) (hline : line ∈ parseLines out) (s f a : String)
    (hp : parsePipe3 line = some (s, f, a)) :
    PgCmd.alterFunctionOwner s f a ∈ functionStep o := by
  unfold functionStep
  rw [hok]
  refine List.mem_cons_of_mem _ ?_
  refine List.mem_flatten.mpr ⟨[PgCmd.alterFunctionOwner s f a], ?_, by simp⟩
  have hm := List.mem_map_of_mem (fun line =>
    match parsePipe3 line with
    | some (s, f, a) => [PgCmd.alterFunctionOwner s f a]
    | none => []) hline
  beta_reduce at hm
  rw [hp] at hm
  exact hm

/-- C8: the Ownership Normalizer is total (it returns a trace for every
oracle — every command of the source sits inside a try/catch, so nothing
escapes), its six categories are all always attempted — the three
database-level commands and the five catalog enumerations occur in every
trace, whatever fails — and within each category every enumerated object's
alter command is attempted regardless of the failures of other objects or
categories. -/
theorem fixDatabaseOwnership_guarded (o : PgOracle) :
    (PgCmd.alterDatabaseOwner ∈ fixDatabaseOwnership o ∧
     PgCmd.grantAllOnDatabase ∈ fixDatabaseOwnership o ∧
     PgCmd.grantCreateOnDatabase ∈ fixDatabaseOwnership o ∧
     PgCmd.schemaQuery ∈ fixDatabaseOwnership o ∧
     PgCmd.tableQuery ∈ fixDatabaseOwnership o ∧
     PgCmd.sequenceQuery ∈ fixDatabaseOwnership o ∧
     PgCmd.viewQuery ∈ fixDatabaseOwnership o ∧
     PgCmd.functionQuery ∈ fixDatabaseOwnership o) ∧
    (∀ out, o .schemaQuery = .ok out → ∀ sch ∈ parseLines out,
      String.mk (trimCs sch.data) ≠ "" → String.mk (trimCs sch.data) ≠ "public" →
      PgCmd.alterSchemaOwner (String.mk (trimCs sch.data)) ∈ fixDatabaseOwnership o) ∧
    (∀ out, o .tableQuery = .ok out → ∀ line ∈ parseLines out, ∀ s t,
      parsePipe2 line = some (s, t) →
      PgCmd.alterTableOwner s t ∈ fixDatabaseOwnership o) ∧
    (∀ out, o .sequenceQuery = .ok out → ∀ line ∈ parseLines out, ∀ s q,
      parsePipe2 line = some (s, q) →
      PgCmd.alterSequenceOwner s q ∈ fixDatabaseOwnership o) ∧
    (∀ out, o .viewQuery = .ok out → ∀ line ∈ parseLines out, ∀ s v,
      parsePipe2 line = some (s, v) →
      PgCmd.alterViewOwner s v ∈ fixDatabaseOwnership o) ∧
    (∀ out, o .functionQuery = .ok out → ∀ line ∈ parseLines out, ∀ s f a,
      parsePipe3 line = some (s, f, a) →
      PgCmd.alterFunctionOwner s f a ∈ fixDatabaseOwnership o) := by
  have hsch : PgCmd.schemaQuery ∈ schemaStep o := by
    unfold schemaStep
    exact List.mem_cons_self ..
  have htab : PgCmd.tableQuery ∈ tableStep o := by
    unfold tableStep
    exact List.mem_cons_self ..
  have hseq : PgCmd.sequenceQuery ∈ sequenceStep o := by
    unfold sequenceStep
    exact List.mem_cons_self ..
  have hview : PgCmd.viewQuery ∈ viewStep o := by
    unfold viewStep
    exact List.mem_cons_self ..
  have hfun : PgCmd.functionQuery ∈ functionStep o := by
    unfold functionStep
    exact List.mem_cons_self ..
  refine ⟨⟨?_, ?_, ?_, ?_, ?_, ?_, ?_, ?_⟩, ?_, ?_, ?_, ?_, ?_⟩
  · simp [fixDatabaseOwnership, dbOwnershipStep, List.mem_append]
  · simp [fixDatabaseOwnership, dbOwnershipStep, List.mem_append]
  · simp [fixDatabaseOwnership, dbOwnershipStep, List.mem_append]
  · simp [fixDatabaseOwnership, List.mem_append, hsch]
  · simp [fixDatabaseOwnership, List.mem_append, htab]
  · simp [fixDatabaseOwnership, List.mem_append, hseq]
  · simp [fixDatabaseOwnership, List.mem_append, hview]
  · simp [fixDatabaseOwnership, List.mem_append, hfun]
  · intro out hok sch hmem h1 h2
    simp [fixDatabaseOwnership, List.mem_append,
      mem_schemaStep o out hok sch hmem h1 h2]
  · intro out hok line hmem s t hp
    simp [fixDatabaseOwnership, List.mem_append,
      mem_tableStep o out hok line hmem s t hp]
  · intro out hok line hmem s q hp
    simp [fixDatabaseOwnership, List.mem_append,
      mem_sequenceStep o out hok line hmem s q hp]
  · intro out hok line hmem s v hp
    simp [fixDatabaseOwnership, List.mem_append,
      mem_viewStep o out hok line hmem s v hp]
  · intro out hok line hmem s f a hp
    simp [fixDatabaseOwnership, List.mem_append,
      mem_functionStep o out hok line hmem s f a hp]

/-- Oracle for the C8 witness: every catalog enumeration succeeds and every
alter/grant command fails. -/
def failingAlterOracle : PgOracle := fun c =>
  match c with
  | .schemaQuery => .ok "analytics\npublic"
  | .tableQuery => .ok " public|users \n public|orders "
  | .sequenceQuery => .ok "public|seq1"
  | .viewQuery => .ok "public|v1"
  | .functionQuery => .ok "public|f1|integer"
  | _ => .error "permission denied"

/-- C8 witness: with every alter command failing, both tables, the
non-public schema, the sequence, the view and the function are still all
attempted, and every category query is present in the trace. -/
theorem fixDatabaseOwnership_guarded_witness :
    PgCmd.alterTableOwner "public" "users" ∈ fixDatabaseOwnership failingAlterOracle ∧
    PgCmd.alterTableOwner "public" "orders" ∈ fixDatabaseOwnership failingAlterOracle ∧
    PgCmd.alterSchemaOwner "analytics" ∈ fixDatabaseOwnership failingAlterOracle ∧
    PgCmd.alterSequenceOwner "public" "seq1" ∈ fixDatabaseOwnership failingAlterOracle ∧
    PgCmd.alterViewOwner "public" "v1" ∈ fixDatabaseOwnership failingAlterOracle ∧
    PgCmd.alterFunctionOwner "public" "f1" "integer" ∈ fixDatabaseOwnership failingAlterOracle ∧
    PgCmd.functionQuery ∈ fixDatabaseOwnership failingAlterOracle :=
  ⟨(fixDatabaseOwnership_guarded failingAlterOracle).2.2.1 _ rfl
      "public|users " (by decide) "public" "users" (by decide),
   (fixDatabaseOwnership_guarded failingAlterOracle).2.2.1 _ rfl
      " public|orders" (by decide) "public" "orders" (by decide),
   (fixDatabaseOwnership_guarded failingAlterOracle).2.1 _ rfl
      "analytics" (by decide) (by decide) (by decide),
   (fixDatabaseOwnership_guarded failingAlterOracle).2.2.2.1 _ rfl
      "public|seq1" (by decide) "public" "seq1" (by decide),
   (fixDatabaseOwnership_guarded failingAlterOracle).2.2.2.2.1 _ rfl
      "public|v1" (by decide) "public" "v1" (by decide),
   (fixDatabaseOwnership_guarded failingAlterOracle).2.2.2.2.2 _ rfl
      "public|f1|integer" (by decide) "public" "f1" "integer" (by decide),
   (fixDatabaseOwnership_guarded failingAlterOracle).1.2.2.2.2.2.2.2⟩

end DbRestoreCli
